import Mathlib

/-
Verification of the sequential-composition utilities (pipe / flow) described
in the repository's lesson material, together with the exercise file
`src/packages/1-function-composition/src/function-composition.ts`.

The pipe/flow implementation itself is imported from the external fp-ts
library and is not part of the repository's sources, so the composer is
modelled from the specification: a non-empty, type-aligned chain of unary
functions, applied strictly left to right.
-/

namespace FComp

/-- Modelled from the spec: the Composition Chain entity (the fp-ts
implementation is not in the repository's sources).  An ordered, non-empty
sequence of unary functions where the output type of element i equals the
input type of element i+1. -/
inductive Chain : Type → Type → Type 1 where
  | single {α β : Type} : (α → β) → Chain α β
  | cons {α β γ : Type} : (α → β) → Chain β γ → Chain α γ

/-- Modelled from the spec: `pipe(seed, f1, ..., fn)` applies `f1` to the
seed, then `f2` to that result, and so on, strictly left to right, returning
the final result (the fp-ts implementation is not in the repository's
sources). -/
def pipe {α β : Type} (x : α) : Chain α β → β
  | .single f => f x
  | .cons f c => pipe (f x) c

/-- The explicit nested application `fn(...f2(f1(x)))` of a chain: the
functions are glued together by function composition, with no seed value
threaded through. -/
def Chain.toFun {α β : Type} : Chain α β → (α → β)
  | .single f => f
  | .cons f c => (Chain.toFun c) ∘ f

/-- Modelled from the spec: `flow(f1, ..., fn)` glues the functions together
into a single function, which when invoked with `x` returns the result of
the last function of the chain (the fp-ts implementation is not in the
repository's sources). -/
def flow {α β : Type} : Chain α β → (α → β)
  | .single f => f
  | .cons f c => fun a => flow c (f a)

/-- Number of functions in a chain; always at least 1. -/
def Chain.length {α β : Type} : Chain α β → Nat
  | .single _ => 1
  | .cons _ c => Chain.length c + 1

/-- Concatenation of two type-aligned chains. -/
def Chain.append {α β γ : Type} : Chain α β → Chain β γ → Chain α γ
  | .single f, q => .cons f q
  | .cons f c, q => .cons f (Chain.append c q)

/-- From the lesson's flow example: adds two. -/
def addTwo (x : Nat) : Nat := x + 2

/-- From the lesson's flow example: doubles. -/
def timesTwo (x : Nat) : Nat := x * 2

/-- Modelled from the spec: a chain whose functions may raise; a raising
function is embedded as one returning `Except ε`, the error value standing
for the thrown exception (exception control flow is not expressible in the
pure fragment, and the fp-ts implementation is not in the repository's
sources). -/
inductive ChainE (ε : Type) : Type → Type → Type 1 where
  | single {α β : Type} : (α → Except ε β) → ChainE ε α β
  | cons {α β γ : Type} : (α → Except ε β) → ChainE ε β γ → ChainE ε α γ

/-- Modelled from the spec: running `pipe` over a chain of possibly-raising
functions.  Each function is applied in turn; the first error aborts the
run and is returned to the caller as is, with no wrapping, retry or
suppression. -/
def pipeE {ε α β : Type} (x : α) : ChainE ε α β → Except ε β
  | .single f => f x
  | .cons f c =>
    match f x with
    | .error e => .error e
    | .ok y => pipeE y c

/-- A possibly-empty prefix of a possibly-raising chain, used to place the
raising function at an arbitrary position k >= 1 of the full chain: the
empty prefix puts it first. -/
inductive ChainE0 (ε : Type) : Type → Type → Type 1 where
  | nil {α : Type} : ChainE0 ε α α
  | cons {α β γ : Type} : (α → Except ε β) → ChainE0 ε β γ → ChainE0 ε α γ

/-- Runs a possibly-empty prefix of possibly-raising functions left to
right; the empty prefix succeeds with the seed, and the first error
aborts the run. -/
def pipeE0 {ε α β : Type} (x : α) : ChainE0 ε α β → Except ε β
  | .nil => .ok x
  | .cons f c =>
    match f x with
    | .error e => .error e
    | .ok y => pipeE0 y c

/-- Prepends a possibly-empty prefix to a non-empty possibly-raising chain,
yielding the full non-empty chain. -/
def ChainE0.appendE {ε α β γ : Type} :
    ChainE0 ε α β → ChainE ε β γ → ChainE ε α γ
  | .nil, q => q
  | .cons f c, q => .cons f (ChainE0.appendE c q)

/-- Instruments every function of a chain with an invocation counter: the
counter component is incremented by one each time the wrapped function is
invoked, while the value component is transformed as before. -/
def instrument {α β : Type} : Chain α β → Chain (Nat × α) (Nat × β)
  | .single f => .single (fun p => (p.1 + 1, f p.2))
  | .cons f c => .cons (fun p => (p.1 + 1, f p.2)) (instrument c)

/-- Modelled from the spec: a possibly-empty composition chain, used to
state the degenerate zero-function case of the public interface (the fp-ts
implementation is not in the repository's sources). -/
inductive Chain0 : Type → Type → Type 1 where
  | nil {α : Type} : Chain0 α α
  | cons {α β γ : Type} : (α → β) → Chain0 β γ → Chain0 α γ

/-- Modelled from the spec: `pipe` extended with the degenerate
zero-function case, which the embedding's type system can express: it
returns the seed unchanged. -/
def pipe0 {α β : Type} (x : α) : Chain0 α β → β
  | .nil => x
  | .cons f c => pipe0 (f x) c

/-- Embeds a non-empty chain into the possibly-empty representation. -/
def Chain.toChain0 {α β : Type} : Chain α β → Chain0 α β
  | .single f => .cons f .nil
  | .cons f c => .cons f (Chain.toChain0 c)

/-- Modelled from the spec: the largest chain length for which the
reference material provides a typed overload. -/
def maxArity : Nat := 19

/-- Modelled from the spec: the chain lengths supported directly by the
typed public interface (1 through 19 inclusive). -/
def supportedArity (n : Nat) : Prop := 1 ≤ n ∧ n ≤ maxArity

/-- A chain of n + 1 identity functions on Nat, witnessing that every
positive length is realizable. -/
def repChain : Nat → Chain Nat Nat
  | 0 => .single id
  | n + 1 => .cons id (repChain n)

/-- From the exercise file: a user record with an id and a name. -/
structure User where
  id : String
  name : String

/-- From the exercise file: a record holding a name and a surname. -/
structure NameAndSurname where
  name : String
  surname : String

/-- C1: for every chain of unary functions f1..fn (n >= 1, enforced by the
`Chain` type) and every seed x, `pipe x c` equals the explicit nested
application fn(...f2(f1(x))) obtained by composing the chain. -/
theorem pipe_eq_nested {α β : Type} (c : Chain α β) (x : α) :
    pipe x c = Chain.toFun c x := by
  induction c with
  | single f => rfl
  | cons f c ih => simp [pipe, Chain.toFun, Function.comp, ih]

/-- C2: for every chain f1..fn (n >= 1) and every argument x,
`flow c x` equals `pipe x c`. -/
theorem flow_eq_pipe {α β : Type} (c : Chain α β) (x : α) :
    flow c x = pipe x c := by
  induction c with
  | single f => rfl
  | cons f c ih => simp [pipe, flow, ih]

/-- C3: the lesson's concrete examples: `pipe 2 (addTwo, timesTwo) = 8`,
`pipe 3 (addTwo, timesTwo) = 10`, and `flow (addTwo, timesTwo) 2 = 8`. -/
theorem concrete_examples :
    pipe 2 (Chain.cons addTwo (Chain.single timesTwo)) = 8 ∧
    pipe 3 (Chain.cons addTwo (Chain.single timesTwo)) = 10 ∧
    flow (Chain.cons addTwo (Chain.single timesTwo)) 2 = 8 := by
  refine ⟨rfl, rfl, rfl⟩

/-- C4: associativity of decomposition: for type-aligned unary functions
f1, f2, f3, composing `flow(f1,f2)` with f3, composing f1 with
`flow(f2,f3)`, and composing the full chain `flow(f1,f2,f3)` are
extensionally equal. -/
theorem flow_assoc {α β γ δ : Type} (f1 : α → β) (f2 : β → γ) (f3 : γ → δ)
    (x : α) :
    flow (Chain.cons (flow (Chain.cons f1 (Chain.single f2)))
        (Chain.single f3)) x
      = flow (Chain.cons f1
          (Chain.single (flow (Chain.cons f2 (Chain.single f3))))) x ∧
    flow (Chain.cons f1
        (Chain.single (flow (Chain.cons f2 (Chain.single f3))))) x
      = flow (Chain.cons f1 (Chain.cons f2 (Chain.single f3))) x := by
  exact ⟨rfl, rfl⟩

/-- C6: evaluation order is strictly left to right: the two opposite
compositions of `addTwo` and `timesTwo` disagree at the input 2
(add-then-double gives 8, double-then-add gives 6), for both flow and
pipe. -/
theorem order_sensitive :
    flow (Chain.cons addTwo (Chain.single timesTwo)) 2
        ≠ flow (Chain.cons timesTwo (Chain.single addTwo)) 2 ∧
    pipe 2 (Chain.cons addTwo (Chain.single timesTwo))
        ≠ pipe 2 (Chain.cons timesTwo (Chain.single addTwo)) := by
  refine ⟨by decide, by decide⟩

theorem pipeE_appendE {ε α β γ : Type} (p : ChainE0 ε α β)
    (q : ChainE ε β γ) (x : α) :
    pipeE x (ChainE0.appendE p q)
      = (pipeE0 x p).bind (fun y => pipeE y q) := by
  induction p with
  | nil => rfl
  | cons f p ih =>
    cases hf : f x <;>
      simp [ChainE0.appendE, pipeE, pipeE0, hf, Except.bind, ih]

/-- C5: if the k-th function of a chain raises (for any position k >= 1,
the possibly-empty prefix holding the k - 1 preceding functions, all of
which succeeded), the error reaches the caller unmodified (no wrapping, no
retry, no suppression: the composer does not catch it), and the functions
after the raising one are never invoked: the result does not depend on
them. -/
theorem error_propagation {ε α β γ δ : Type} (p : ChainE0 ε α β)
    (f : β → Except ε γ) (rest rest2 : ChainE ε γ δ) (x : α) (y : β) (e : ε)
    (hp : pipeE0 x p = .ok y) (hf : f y = .error e) :
    pipeE x (ChainE0.appendE p (ChainE.cons f rest)) = .error e ∧
    pipeE x (ChainE0.appendE p (ChainE.cons f rest))
      = pipeE x (ChainE0.appendE p (ChainE.cons f rest2)) := by
  rw [pipeE_appendE, pipeE_appendE, hp]
  simp [Except.bind, pipeE, hf]

theorem error_propagation_witness :
    pipeE 0 (ChainE0.appendE ChainE0.nil
        (ChainE.cons (fun _ => (Except.error "boom" : Except String Nat))
          (ChainE.single (fun n => Except.ok n))))
      = Except.error "boom" ∧
    pipeE 0 (ChainE0.appendE ChainE0.nil
        (ChainE.cons (fun _ => (Except.error "boom" : Except String Nat))
          (ChainE.single (fun n => Except.ok n))))
      = pipeE 0 (ChainE0.appendE ChainE0.nil
          (ChainE.cons (fun _ => (Except.error "boom" : Except String Nat))
            (ChainE.single (fun n => Except.ok (n + 7))))) :=
  error_propagation ChainE0.nil
    (fun _ => (Except.error "boom" : Except String Nat))
    (ChainE.single (fun n => Except.ok n))
    (ChainE.single (fun n => Except.ok (n + 7))) 0 0 "boom" rfl rfl

/-- C7: single evaluation: instrumenting every function of a chain with an
invocation counter and invoking the composed result once increments the
counter exactly once per occurrence (the total count equals the chain
length), while the computed value is the same as the uninstrumented pipe:
nothing is memoized or delayed. -/
theorem single_evaluation {α β : Type} (c : Chain α β) (x : α) (s : Nat) :
    pipe (s, x) (instrument c) = (s + Chain.length c, pipe x c) := by
  induction c generalizing s with
  | single f => rfl
  | cons f c ih =>
    simp only [instrument, pipe, Chain.length, ih, Prod.mk.injEq]
    exact ⟨by omega, trivial⟩

/-- C8: the zero-function degenerate case is expressible in the embedding's
type system and returns the seed unchanged, and on every non-empty chain
the extended interface agrees with pipe; no InvalidArity error arises. -/
theorem zero_function_case :
    (∀ (α : Type) (x : α), pipe0 x Chain0.nil = x) ∧
    (∀ (α β : Type) (c : Chain α β) (x : α),
      pipe0 x (Chain.toChain0 c) = pipe x c) := by
  refine ⟨fun α x => rfl, fun α β c x => ?_⟩
  induction c with
  | single f => rfl
  | cons f c ih => simp only [Chain.toChain0, pipe0, pipe, ih]

theorem repChain_length (n : Nat) : Chain.length (repChain n) = n + 1 := by
  induction n with
  | zero => rfl
  | succ n ih => simp only [repChain, Chain.length, ih]

theorem pipe_split {α β : Type} (c : Chain α β) (k : Nat) (h1 : 1 ≤ k)
    (h2 : k < Chain.length c) :
    ∃ (γ : Type) (c1 : Chain α γ) (c2 : Chain γ β),
      Chain.length c1 = k ∧
      Chain.length c1 + Chain.length c2 = Chain.length c ∧
      ∀ x, pipe x c = pipe (pipe x c1) c2 := by
  induction c generalizing k with
  | single f =>
    exact absurd h2 (by simp only [Chain.length]; omega)
  | cons f c ih =>
    match k, h1 with
    | 1, _ =>
      exact ⟨_, Chain.single f, c, rfl, by simp only [Chain.length]; omega,
        fun x => rfl⟩
    | k' + 2, _ =>
      have hk : k' + 1 < Chain.length c := by
        simp only [Chain.length] at h2; omega
      obtain ⟨γ, c1, c2, hl, hsum, hp⟩ := ih (k' + 1) (by omega) hk
      refine ⟨γ, Chain.cons f c1, c2, ?_, ?_, fun x => hp (f x)⟩
      · simp only [Chain.length, hl]
      · simp only [Chain.length] at hsum ⊢; omega

/-- C9: every chain length from 1 through 19 (the reference material's
fixed maximum) is a supported arity and is realized by some chain, and any
chain longer than 19 is handled by composing multiple pipe invocations: it
splits into a supported sub-chain followed by a remainder such that piping
the whole chain equals piping the remainder on the result of piping the
sub-chain. -/
theorem arity_bounds :
    (∀ n : Nat, 1 ≤ n → n ≤ maxArity →
      ∃ c : Chain Nat Nat, Chain.length c = n ∧
        supportedArity (Chain.length c)) ∧
    (∀ (α β : Type) (c : Chain α β) (x : α), maxArity < Chain.length c →
      ∃ (γ : Type) (c1 : Chain α γ) (c2 : Chain γ β),
        supportedArity (Chain.length c1) ∧
        Chain.length c1 + Chain.length c2 = Chain.length c ∧
        pipe x c = pipe (pipe x c1) c2) := by
  constructor
  · intro n hn1 hn2
    refine ⟨repChain (n - 1), ?_, ?_⟩
    · rw [repChain_length]; omega
    · rw [repChain_length]
      exact ⟨by omega, by omega⟩
  · intro α β c x h
    obtain ⟨γ, c1, c2, hl, hsum, hp⟩ :=
      pipe_split c maxArity (by decide) h
    exact ⟨γ, c1, c2, by rw [hl]; exact ⟨by decide, le_refl _⟩, hsum, hp x⟩

theorem arity_bounds_witness :
    (∃ c : Chain Nat Nat, Chain.length c = 19 ∧
      supportedArity (Chain.length c)) ∧
    (∃ (γ : Type) (c1 : Chain Nat γ) (c2 : Chain γ Nat),
      supportedArity (Chain.length c1) ∧
      Chain.length c1 + Chain.length c2 = Chain.length (repChain 19) ∧
      pipe 0 (repChain 19) = pipe (pipe 0 c1) c2) :=
  ⟨arity_bounds.1 19 (by decide) (by decide),
   arity_bounds.2 Nat Nat (repChain 19) 0 (by decide)⟩

/-- C10: the exercise file's three declared functions form a well-typed
composition chain: whatever their implementations, piping a string id
through findUserById, getUserName and convertNameToNameAndSurname is
well-defined, has result type NameAndSurname, and equals the nested
application. -/
theorem exercise_chain_well_typed
    (findUserById : String → User) (getUserName : User → String)
    (convertNameToNameAndSurname : String → NameAndSurname) (id : String) :
    pipe id (Chain.cons findUserById (Chain.cons getUserName
        (Chain.single convertNameToNameAndSurname)))
      = convertNameToNameAndSurname (getUserName (findUserById id)) := rfl

end FComp
